import Mathlib

/-!
Shallow embedding of the tinify-go client library (package `Tinify`),
covering the request/response pipeline: proxy resolution
(`client.go`), upload-response interpretation and command accumulation
(`source.go`), response classification (`source.go`), and header
metadata extraction (`result_meta.go`, `result.go`).

Go maps `map[string][]string` (http.Header) are modelled as association
lists with first-match lookup; a missing key yields the empty list,
exactly as Go map indexing yields the zero value.  Library calls that
touch the network, the filesystem or the JSON encoder (`http.Client.Do`,
`io.ReadAll`, `json.Marshal`, `json.Unmarshal`, `url.Parse`,
`Result.ToFile`) are passed in as explicit oracle parameters, so each
function here is the pure part of the corresponding Go function, with
the effectful results as inputs.
-/

deriving instance DecidableEq for Except

namespace Tinify

/-- `http.Header`: Go `map[string][]string`. -/
abbrev Headers : Type := List (String × List String)

/-- Go map indexing `h["K"]`: first binding when present, the zero value
`[]` (nil slice) otherwise. -/
def hGet (h : Headers) (k : String) : List String :=
  match h with
  | [] => []
  | (k', v) :: rest => if k' = k then v else hGet rest k

/-- `http.Header.Get`: first value of the (canonicalised) key, or `""`. -/
def headerGet (h : Headers) (k : String) : String :=
  match hGet h k with
  | [] => ""
  | v :: _ => v

/-- Constant `ResizeMethodScale` from source.go. -/
def ResizeMethodScale : String := "scale"

/-- Constant `ResizeMethodFit` from source.go. -/
def ResizeMethodFit : String := "fit"

/-- Constant `ResizeMethodCover` from source.go. -/
def ResizeMethodCover : String := "cover"

/-- Constant `ResizeMethodThumb` from source.go (the spec calls this
method "thumbnail"). -/
def ResizeMethodThumb : String := "thumb"

/-- `ResizeOption` struct from source.go.  Width/Height are Go `int64`,
modelled as `Int`. -/
structure ResizeOption where
  Method : String
  Width : Int
  Height : Int
deriving DecidableEq

/-- `ConvertOptions` struct from source.go; its single field is named
`Type` in Go. -/
structure ConvertOptions where
  Type' : String
deriving DecidableEq

/-- `TransformOptions` struct from source.go. -/
structure TransformOptions where
  Background : String
deriving DecidableEq

/-- The dynamic (`any`) values stored in `Source.commands`: each of the
three mutating methods stores its own option type. -/
inductive Cmd
  | resize (o : ResizeOption)
  | convert (o : ConvertOptions)
  | transform (o : TransformOptions)
deriving DecidableEq

/-- `Source` struct from source.go.  `commands : map[string]any` is an
association list (key uniqueness is maintained by `mapSet`). -/
structure Source where
  url : String
  commands : List (String × Cmd)
  compressionCount : String
deriving DecidableEq

/-- Go map assignment `m[k] = v`: replace the binding when the key is
present, append it otherwise. -/
def mapSet (m : List (String × Cmd)) (k : String) (v : Cmd) : List (String × Cmd) :=
  match m with
  | [] => [(k, v)]
  | (k', v') :: rest => if k' = k then (k, v) :: rest else (k', v') :: mapSet rest k v

/-- Go map lookup `m[k]` (as an `Option`, to tell absence apart). -/
def mapGet (m : List (String × Cmd)) (k : String) : Option Cmd :=
  match m with
  | [] => none
  | (k', v) :: rest => if k' = k then some v else mapGet rest k

/-- `Source.Resize` from source.go lines 165-189.  Returns the
post-state of the receiver together with the returned error; every
error path in Go returns before the `s.commands["resize"] = option`
assignment, so there the post-state equals the pre-state. -/
def Resize (s : Source) (option : Option ResizeOption) : Source × Option String :=
  match option with
  | none => (s, some "option for resize is required")
  | some opt =>
    if opt.Method = ResizeMethodScale then
      if opt.Width ≠ 0 ∧ opt.Height ≠ 0 then
        (s, some "resize with scale method can only have either width or height set, but not both")
      else if opt.Width = 0 ∧ opt.Height = 0 then
        (s, some "resize with scale method cannot have width and height both set to zero")
      else
        ({ s with commands := mapSet s.commands "resize" (Cmd.resize opt) }, none)
    else
      if opt.Width < 1 then
        (s, some "width must be >=1")
      else if opt.Height < 1 then
        (s, some "height must be >=1")
      else
        ({ s with commands := mapSet s.commands "resize" (Cmd.resize opt) }, none)

/-- The `ConvertMIMETypes` map from source.go; Go map indexing on a
missing key yields the zero value `""`. -/
def ConvertMIMETypes (s : String) : String :=
  if s = "png" then "image/png"
  else if s = "jpeg" then "image/jpeg"
  else if s = "webp" then "image/webp"
  else if s = "avif" then "image/avif"
  else ""

/-- The accumulation loop of `Source.Convert` (source.go lines 209-215):
`for i, option := range options { if i != 0 { allOpts += "," }; allOpts
+= ConvertMIMETypes[option] }`. -/
def convertJoin : List String → String
  | [] => ""
  | o :: rest => rest.foldl (fun acc x => acc ++ "," ++ ConvertMIMETypes x) (ConvertMIMETypes o)

/-- `Source.Convert` from source.go lines 204-226, with explicit
post-state as in `Resize`. -/
def Convert (s : Source) (options : List String) : Source × Option String :=
  if options.length = 0 then
    (s, some "at least one option for convert is required")
  else
    let allOpts := convertJoin options
    if allOpts.length = 0 then
      (s, some "concatenation of MIME types unexpectedly failed")
    else
      ({ s with commands := mapSet s.commands "convert" (Cmd.convert ⟨allOpts⟩) }, none)

/-- `Source.Transform` from source.go lines 235-243, with explicit
post-state as in `Resize`. -/
def Transform (s : Source) (option : Option TransformOptions) : Source × Option String :=
  match option with
  | none => (s, some "at least one option for transform is required")
  | some opt =>
    ({ s with commands := mapSet s.commands "transform" (Cmd.transform opt) }, none)

/-- Comma-join following the spec's words for `Convert`: the per-name
lookup results joined with a separator between consecutive positions.
Used only to compare against the source-derived `convertJoin`. -/
def specJoin (sep : String) : List String → String
  | [] => ""
  | [x] => x
  | x :: y :: rest => x ++ sep ++ specJoin sep (y :: rest)

/-- The value of `Client.reconfigureProxyTransport` (client.go lines
84-121), a Go `func(*http.Request) (*url.URL, error)`: Go `nil`
(`nilFunc`), `http.ProxyURL(fixedURL)` (`proxyURL`, carrying the fixed
URL or `none` for `http.ProxyURL(nil)`), or `http.ProxyFromEnvironment`.
Only Go `nil` compares equal to `nil`; `http.ProxyURL(nil)` is a non-nil
closure. -/
inductive ProxyFunc
  | nilFunc
  | proxyURL (u : Option String)
  | fromEnvironment
deriving DecidableEq

/-- One of the guarded blocks `if reqProxy == nil && len(candidate) > 0
{ ... }` of `reconfigureProxyTransport` (client.go lines 96-113): `none`
models the early `return nil` on a parse error, otherwise the updated
`reqProxy`. -/
def proxyAttempt (parse : String → Option String) (reqProxy : ProxyFunc)
    (candidate : String) : Option ProxyFunc :=
  if reqProxy = ProxyFunc.nilFunc ∧ 0 < candidate.length then
    match parse candidate with
    | none => none
    | some u => some (ProxyFunc.proxyURL (some u))
  else
    some reqProxy

/-- `Client.reconfigureProxyTransport` from client.go lines 84-121.
`parse` is the `url.Parse` oracle (`none` = parse error); `globalProxy`
is the package-level `proxy` variable, `clientProxy` the receiver's
`c.proxy`, `proxyURL` the function's parameter.  `reqProxy` starts as
`http.ProxyURL(nil)` (line 85), and the first guarded block (lines
87-94) tests only the length of the global proxy. -/
def reconfigureProxyTransport (parse : String → Option String)
    (globalProxy clientProxy proxyURL : String) : ProxyFunc :=
  let firstStep : Option ProxyFunc :=
    if 0 < globalProxy.length then
      match parse globalProxy with
      | none => none
      | some u => some (ProxyFunc.proxyURL (some u))
    else
      some (ProxyFunc.proxyURL none)
  match firstStep with
  | none => ProxyFunc.nilFunc
  | some r1 =>
    match proxyAttempt parse r1 clientProxy with
    | none => ProxyFunc.nilFunc
    | some r2 =>
      match proxyAttempt parse r2 proxyURL with
      | none => ProxyFunc.nilFunc
      | some r3 =>
        if r3 = ProxyFunc.nilFunc then ProxyFunc.fromEnvironment else r3

/-- Go function results that may also end in a runtime panic (nil-slice
indexing, nil-pointer dereference). -/
inductive GoRet (α : Type)
  | ok (a : α)
  | err (msg : String)
  | panic
deriving DecidableEq

/-- `getSourceFromResponse` from source.go lines 94-109.  Note line 107
indexes `response.Header["Compression-Count"][0]` unconditionally: on a
missing header the Go map yields a nil slice and the indexing panics. -/
def getSourceFromResponse (header : Headers) (statusCode : Nat) : GoRet Source :=
  let location := hGet header "Location"
  if 0 < location.length ∧ statusCode ≠ 400 then
    let url := location.headD ""
    match hGet header "Compression-Count" with
    | [] => GoRet.panic
    | cc :: _ => GoRet.ok { url := url, commands := [], compressionCount := cc }
  else
    GoRet.err ("empty location and/or status error " ++ toString statusCode)

/-- The dynamic `body any` argument of `Client.Request`: an untyped
`nil`, a `[]byte`, a `map[string]any` (values abstracted to strings), or
a value of any other dynamic type. -/
inductive RequestBody
  | nilBody
  | bytes (b : List Nat)
  | jsonMap (m : List (String × String))
  | other

/-- The outgoing `http.Request` as configured by `Client.Request`: final
URL, optional body bytes, and whether the JSON content-type header was
set. -/
structure GoRequest where
  url : String
  bodyBytes : Option (List Nat)
  jsonContentType : Bool
deriving DecidableEq

/-- Constant `API_ENDPOINT` from client.go. -/
def API_ENDPOINT : String := "https://api.tinify.com"

/-- The endpoint prefixing at client.go lines 39-41: a request URL not
starting with "https" (`strings.HasPrefix`, modelled on the character
lists) is prefixed with `API_ENDPOINT`. -/
def requestURL (urlRequest : String) : String :=
  if "https".toList.isPrefixOf urlRequest.toList then urlRequest
  else API_ENDPOINT ++ urlRequest

/-- The request-construction part of `Client.Request` (client.go lines
36-77): endpoint prefixing and the body type-switch.  `marshal` is the
`json.Marshal` oracle.  An error means `Client.Request` returns before
`httpClient.Do` is ever reached. -/
def Request (urlRequest : String) (body : RequestBody)
    (marshal : List (String × String) → Except String (List Nat)) :
    Except String GoRequest :=
  let url := requestURL urlRequest
  match body with
  | .bytes b =>
    .ok { url := url, bodyBytes := if 0 < b.length then some b else none,
          jsonContentType := false }
  | .jsonMap m =>
    if 0 < m.length then
      match marshal m with
      | .error e => .error e
      | .ok bj => .ok { url := url, bodyBytes := some bj, jsonContentType := true }
    else
      .ok { url := url, bodyBytes := none, jsonContentType := true }
  | _ => .error "invalid request body; must be either an image or a JSON object"

/-- Digit accumulation of `strconv.ParseInt` base 10: `none` on an empty
or non-digit string (syntax error), otherwise the value. -/
def digitsValAux : List Char → Nat → Option Nat
  | [], acc => some acc
  | c :: cs, acc =>
    if c.isDigit then digitsValAux cs (acc * 10 + (c.toNat - 48)) else none

/-- The digit part of `strconv.ParseInt`: an empty digit string is a
syntax error. -/
def digitsVal (cs : List Char) : Option Nat :=
  match cs with
  | [] => none
  | _ => digitsValAux cs 0

/-- `math.MaxInt64`. -/
def maxInt64 : Int := 2 ^ 63 - 1

/-- `math.MinInt64`. -/
def minInt64 : Int := -(2 ^ 63)

/-- The optional leading sign accepted by `strconv.ParseInt`: whether
the number is negated, and the remaining characters. -/
def signSplit (cs : List Char) : Bool × List Char :=
  match cs with
  | '-' :: rest => (true, rest)
  | '+' :: rest => (false, rest)
  | _ => (false, cs)

/-- `strconv.Atoi` on a 64-bit platform (`ParseInt(s, 10, 0)`): the
returned value together with whether an error was also returned.  A
syntax error (empty string, bare sign, non-digit) yields value 0; a
value out of the int64 range yields the clamped boundary with
`ErrRange`.  The callers in result_meta.go discard the error. -/
def goAtoi (s : String) : Int × Bool :=
  let signed := signSplit s.toList
  match digitsVal signed.2 with
  | none => (0, true)
  | some n =>
    if signed.1 then
      if (n : Int) > 2 ^ 63 then (minInt64, true) else (-(n : Int), false)
    else
      if (n : Int) > maxInt64 then (maxInt64, true) else ((n : Int), false)

/-- `ResultMeta` struct from result_meta.go. -/
structure ResultMeta where
  meta : Headers
deriving DecidableEq

/-- `NewResultMeta` from result_meta.go. -/
def NewResultMeta (meta : Headers) : ResultMeta := ⟨meta⟩

/-- `ResultMeta.width` from result_meta.go lines 26-33. -/
def ResultMeta.width (r : ResultMeta) : Int :=
  match hGet r.meta "Image-Width" with
  | [] => 0
  | v :: _ => (goAtoi v).1

/-- `ResultMeta.height` from result_meta.go lines 35-42. -/
def ResultMeta.height (r : ResultMeta) : Int :=
  match hGet r.meta "Image-Height" with
  | [] => 0
  | v :: _ => (goAtoi v).1

/-- `ResultMeta.location` from result_meta.go lines 44-50. -/
def ResultMeta.location (r : ResultMeta) : String :=
  match hGet r.meta "Location" with
  | [] => ""
  | v :: _ => v

/-- `ResultMeta.size` from result_meta.go lines 52-60. -/
def ResultMeta.size (r : ResultMeta) : Int :=
  match hGet r.meta "Content-Length" with
  | [] => 0
  | v :: _ => (goAtoi v).1

/-- `ResultMeta.mediaType` from result_meta.go lines 62-68. -/
def ResultMeta.mediaType (r : ResultMeta) : String :=
  match hGet r.meta "Content-Type" with
  | [] => ""
  | v :: _ => v

/-- `ResultMeta.compressionCount` from result_meta.go lines 73-80. -/
def ResultMeta.compressionCount (r : ResultMeta) : Int :=
  match hGet r.meta "Compression-Count" with
  | [] => 0
  | v :: _ => (goAtoi v).1

/-- `Result` struct from result.go: raw body bytes plus the embedded
`*ResultMeta`. -/
structure Result where
  data : List Nat
  resultMeta : ResultMeta
deriving DecidableEq

/-- `NewResult` from result.go lines 17-22. -/
def NewResult (meta : Headers) (data : List Nat) : Result :=
  { data := data, resultMeta := NewResultMeta meta }

/-- `Result.Data` from result.go. -/
def Result.Data (r : Result) : List Nat := r.data

/-- Promoted method `result.compressionCount()` used by ToFileC /
ToBufferC. -/
def Result.compressionCount (r : Result) : Int :=
  r.resultMeta.compressionCount

/-- `ErrorMessage` struct from source.go. -/
structure ErrorMessage where
  Error : String
  Message : String
deriving DecidableEq

/-- The fields of an `*http.Response` that `Source.toResult` reads:
status code, status line, headers, and the outcome of
`io.ReadAll(response.Body)` (bytes or a read error). -/
structure HTTPResponse where
  statusCode : Nat
  status : String
  header : Headers
  bodyRead : Except String (List Nat)
deriving DecidableEq

/-- `fmt` verb `%q` on a string without characters needing escapes. -/
def goQuote (s : String) : String := "\x22" ++ s ++ "\x22"

/-- `Source.toResult` from source.go lines 248-290.  `requestResult` is
the outcome of `GetClient().Request(http.MethodGet, s.url, s.commands)`
(client.go; an `http.Response` or a transport error) and `unmarshal` is
the `json.Unmarshal` oracle for decoding an `ErrorMessage` from the
body bytes. -/
def toResult (s : Source) (requestResult : Except String HTTPResponse)
    (unmarshal : List Nat → Except String ErrorMessage) : Except String Result :=
  if s.url.length = 0 then .error "url is empty"
  else
    match requestResult with
    | .error e => .error e
    | .ok response =>
      if 400 ≤ response.statusCode ∨ headerGet response.header "Content-Type" = "application/json" then
        match response.bodyRead with
        | .error _ => .error response.status
        | .ok data =>
          match unmarshal data with
          | .error jErr =>
            .error ("Tinify API call failed, HTTP status was " ++ goQuote response.status ++
              ", couldn't unmarshal JSON body: error " ++ goQuote jErr)
          | .ok errMsg =>
            .error ("Tinify API call failed, HTTP status was " ++ goQuote response.status ++
              ". Error: " ++ errMsg.Error ++ " Message: " ++ errMsg.Message)
      else
        match response.bodyRead with
        | .error e => .error e
        | .ok data => .ok (NewResult response.header data)

/-- `Source.ToFileC` from source.go lines 124-131.  When `toResult`
returns an error it also returns a nil `*Result`, and the Go code then
calls `result.compressionCount()` on that nil pointer: a nil-pointer
dereference panic.  `writeResult` is the outcome of
`result.ToFile(path)` (`none` = written successfully). -/
def ToFileC (s : Source) (requestResult : Except String HTTPResponse)
    (unmarshal : List Nat → Except String ErrorMessage)
    (writeResult : Option String) : GoRet (Int × Option String) :=
  match toResult s requestResult unmarshal with
  | .error _ => GoRet.panic
  | .ok result => GoRet.ok (result.compressionCount, writeResult)

/-- `Source.ToBufferC` from source.go lines 147-162: returns (rawData,
count, error); the count is extracted before the raw-data length
check. -/
def ToBufferC (s : Source) (requestResult : Except String HTTPResponse)
    (unmarshal : List Nat → Except String ErrorMessage) :
    List Nat × Int × Option String :=
  match toResult s requestResult unmarshal with
  | .error e => ([], 0, some e)
  | .ok result =>
    let count := result.compressionCount
    let rawData := result.Data
    if rawData.length = 0 then
      (rawData, count, some "result returned zero bytes")
    else
      (rawData, count, none)

/-- Decimal digit-string semantics following the spec's words ("parse an
integer header"): defined through Mathlib's `Nat.ofDigits`, independent
of the accumulator loop in `digitsValAux`.  `none` on an empty or
non-digit string. -/
def decimalDigits (cs : List Char) : Option Nat :=
  if cs ≠ [] ∧ cs.all Char.isDigit then
    some (Nat.ofDigits 10 ((cs.map fun c => c.toNat - 48).reverse))
  else none

/-- The mathematical integer denoted by a decimal string with an
optional sign, or `none` when the string is not a decimal numeral.
Spec-side counterpart of `goAtoi`, without any range clamping. -/
def decimalValue (v : String) : Option Int :=
  let sp := signSplit v.toList
  match decimalDigits sp.2 with
  | none => none
  | some n => some (if sp.1 then -(n : Int) else (n : Int))

/-- A concrete `Source` as produced by a successful upload. -/
def s0 : Source :=
  { url := "https://api.tinify.com/output/abc", commands := [], compressionCount := "1" }

/-- A concrete 429 response with a JSON error body. -/
def resp429 : HTTPResponse :=
  { statusCode := 429, status := "429 Too Many Requests",
    header := [("Content-Type", ["application/json"])],
    bodyRead := .ok [123] }

theorem mapGet_mapSet (m : List (String × Cmd)) (k : String) (v : Cmd) :
    mapGet (mapSet m k v) k = some v := by
  induction m with
  | nil => simp [mapSet, mapGet]
  | cons p rest ih =>
    obtain ⟨k', v'⟩ := p
    by_cases h : k' = k
    · simp [mapSet, mapGet, h]
    · simp [mapSet, mapGet, h, ih]

theorem convertFoldl_append (rest : List String) (a b : String) :
    rest.foldl (fun acc x => acc ++ "," ++ ConvertMIMETypes x) (a ++ b)
      = a ++ rest.foldl (fun acc x => acc ++ "," ++ ConvertMIMETypes x) b := by
  induction rest generalizing b with
  | nil => simp
  | cons c cs ih =>
    simp only [List.foldl_cons]
    rw [String.append_assoc a b ",",
      String.append_assoc a (b ++ ",") (ConvertMIMETypes c), ih]

theorem convertJoin_eq_specJoin (opts : List String) :
    convertJoin opts = specJoin "," (opts.map ConvertMIMETypes) := by
  induction opts with
  | nil => rfl
  | cons o rest ih =>
    cases rest with
    | nil => rfl
    | cons o2 rest2 =>
      have h1 : convertJoin (o :: o2 :: rest2)
          = (ConvertMIMETypes o ++ ",") ++ convertJoin (o2 :: rest2) := by
        simp only [convertJoin, List.foldl_cons]
        exact convertFoldl_append rest2 (ConvertMIMETypes o ++ ",") (ConvertMIMETypes o2)
      rw [h1, ih]
      simp [specJoin, String.append_assoc]

theorem digitsValAux_of_all_digits (cs : List Char) :
    ∀ acc, cs.all Char.isDigit = true → digitsValAux cs acc
      = some (acc * 10 ^ cs.length + Nat.ofDigits 10 ((cs.map fun c => c.toNat - 48).reverse)) := by
  induction cs with
  | nil => intro acc _; simp [digitsValAux, Nat.ofDigits_nil]
  | cons c cs ih =>
    intro acc hall
    simp only [List.all_cons, Bool.and_eq_true] at hall
    simp only [digitsValAux, hall.1, if_true]
    rw [ih _ hall.2]
    congr 1
    simp only [List.map_cons, List.reverse_cons, Nat.ofDigits_append, List.length_cons,
      List.length_reverse, List.length_map, Nat.ofDigits_singleton]
    ring

theorem digitsValAux_not_all (cs : List Char) :
    ∀ acc, cs.all Char.isDigit = false → digitsValAux cs acc = none := by
  induction cs with
  | nil => intro acc h; simp at h
  | cons c cs ih =>
    intro acc h
    by_cases hc : c.isDigit = true
    · simp only [List.all_cons, hc, Bool.true_and] at h
      simp only [digitsValAux, hc, if_true]
      exact ih _ h
    · simp only [Bool.not_eq_true] at hc
      simp [digitsValAux, hc]

theorem digitsVal_eq_decimalDigits (cs : List Char) :
    digitsVal cs = decimalDigits cs := by
  cases cs with
  | nil => rfl
  | cons c rest =>
    by_cases hall : (c :: rest).all Char.isDigit = true
    · rw [show digitsVal (c :: rest) = digitsValAux (c :: rest) 0 from rfl,
        digitsValAux_of_all_digits _ 0 hall]
      simp [decimalDigits, hall]
    · simp only [Bool.not_eq_true] at hall
      rw [show digitsVal (c :: rest) = digitsValAux (c :: rest) 0 from rfl,
        digitsValAux_not_all _ 0 hall]
      simp [decimalDigits, hall]

theorem goAtoi_of_decimalValue_none (v : String) (h : decimalValue v = none) :
    goAtoi v = (0, true) := by
  cases hd : decimalDigits (signSplit v.toList).2 with
  | some m =>
    simp only [decimalValue] at h
    rw [hd] at h
    simp at h
  | none =>
    simp only [goAtoi]
    rw [digitsVal_eq_decimalDigits, hd]

theorem goAtoi_of_decimalValue_some (v : String) (n : Int) (h : decimalValue v = some n) :
    goAtoi v = (if n < minInt64 then (minInt64, true)
      else if maxInt64 < n then (maxInt64, true)
      else (n, false)) := by
  cases hd : decimalDigits (signSplit v.toList).2 with
  | none =>
    simp only [decimalValue] at h
    rw [hd] at h
    simp at h
  | some m =>
    simp only [decimalValue] at h
    rw [hd] at h
    simp only [Option.some_inj] at h
    simp only [goAtoi]
    rw [digitsVal_eq_decimalDigits, hd]
    have h63 : (2 : Int) ^ 63 = 9223372036854775808 := by norm_num
    have hmn : (0 : Int) ≤ (m : Int) := Int.ofNat_nonneg m
    by_cases hsign : (signSplit v.toList).1 = true
    · rw [hsign] at h
      simp only [if_true] at h
      subst h
      simp only [hsign, if_true, maxInt64, minInt64, h63]
      split_ifs <;> first | rfl | omega
    · simp only [Bool.not_eq_true] at hsign
      rw [hsign] at h
      simp only [Bool.false_eq_true, if_false] at h
      subst h
      simp only [hsign, Bool.false_eq_true, if_false, maxInt64, minInt64, h63]
      split_ifs <;> first | rfl | omega

/-- C1: the claim says proxy resolution consults, in order, the global
proxy, the client's proxy, the per-call proxy and the environment,
short-circuiting at the first non-empty successfully-parsed source, and
that a malformed proxy URL falls through to the next level.  The code
contradicts this (and its own comments): `reqProxy` starts as
`http.ProxyURL(nil)`, a non-nil closure, so every later `reqProxy ==
nil` guard is false.  With no global proxy set, a configured client
proxy, a per-call proxy, and the environment are all ignored and the
no-proxy function is returned; and a malformed global proxy makes the
resolver return a nil proxy function outright instead of falling
through. -/
theorem C1_reconfigureProxy_later_sources_unreachable :
    reconfigureProxyTransport (fun u => some u) "" "http://clientproxy.example.com:8080" ""
      = ProxyFunc.proxyURL none ∧
    reconfigureProxyTransport (fun u => some u) "" "" "http://callproxy.example.com:8080"
      = ProxyFunc.proxyURL none ∧
    reconfigureProxyTransport (fun u => some u) "" "" "" = ProxyFunc.proxyURL none ∧
    reconfigureProxyTransport (fun _ => none) "http://bad proxy"
        "http://clientproxy.example.com:8080" ""
      = ProxyFunc.nilFunc := by
  decide

/-- C2: a 201 upload response with a Location header and
Compression-Count "1" yields a Source with that workingURL and recorded
count "1" (first conjunct, as the claim says); but when the
Compression-Count header is absent the code indexes the nil slice
`response.Header["Compression-Count"][0]` and panics (second conjunct),
contradicting both the claim and the comment above source.go line 107
("If the request didn't have such a header, that's ok"). -/
theorem C2_getSourceFromResponse_count_header :
    getSourceFromResponse
        [("Location", ["https://api.tinify.com/output/abc"]), ("Compression-Count", ["1"])] 201
      = GoRet.ok s0 ∧
    getSourceFromResponse [("Location", ["https://api.tinify.com/output/abc"])] 201
      = GoRet.panic := by
  decide

/-- C3: for a ResizeOption with width ≥ 0 and height ≥ 0: with method
scale, both-zero or both-nonzero dimensions yield a validation error
while exactly one nonzero succeeds and stores the option under
"resize"; with method fit, cover or thumbnail (constant
`ResizeMethodThumb`), width < 1 or height < 1 errors and width ≥ 1 ∧
height ≥ 1 succeeds and stores the option. -/
theorem C3_resize_validation (s : Source) (opt : ResizeOption)
    (hw : 0 ≤ opt.Width) (hh : 0 ≤ opt.Height) :
    (opt.Method = ResizeMethodScale →
      ((opt.Width = 0 ∧ opt.Height = 0) → (Resize s (some opt)).2.isSome = true) ∧
      ((opt.Width ≠ 0 ∧ opt.Height ≠ 0) → (Resize s (some opt)).2.isSome = true) ∧
      (((opt.Width = 0 ∧ opt.Height ≠ 0) ∨ (opt.Width ≠ 0 ∧ opt.Height = 0)) →
        (Resize s (some opt)).2 = none ∧
        mapGet (Resize s (some opt)).1.commands "resize" = some (Cmd.resize opt))) ∧
    ((opt.Method = ResizeMethodFit ∨ opt.Method = ResizeMethodCover ∨
        opt.Method = ResizeMethodThumb) →
      ((opt.Width < 1 ∨ opt.Height < 1) → (Resize s (some opt)).2.isSome = true) ∧
      ((1 ≤ opt.Width ∧ 1 ≤ opt.Height) →
        (Resize s (some opt)).2 = none ∧
        mapGet (Resize s (some opt)).1.commands "resize" = some (Cmd.resize opt))) := by
  obtain ⟨m, w, h⟩ := opt
  dsimp only at hw hh ⊢
  constructor
  · intro hm
    subst hm
    refine ⟨?_, ?_, ?_⟩
    · rintro ⟨hw0, hh0⟩
      simp [Resize, hw0, hh0]
    · rintro ⟨hw0, hh0⟩
      simp [Resize, hw0, hh0]
    · rintro (⟨hw0, hh0⟩ | ⟨hw0, hh0⟩) <;>
        simp [Resize, hw0, hh0, mapGet_mapSet]
  · intro hm
    have hm' : m ≠ ResizeMethodScale := by
      rcases hm with h1 | h1 | h1 <;> subst h1 <;> decide
    constructor
    · intro hlt
      rcases hlt with h1 | h1
      · simp [Resize, if_neg hm', if_pos h1]
      · by_cases hw1 : w < 1
        · simp [Resize, if_neg hm', if_pos hw1]
        · simp [Resize, if_neg hm', if_neg hw1, if_pos h1]
    · rintro ⟨hw1, hh1⟩
      have hnw : ¬ w < 1 := by omega
      have hnh : ¬ h < 1 := by omega
      simp [Resize, if_neg hm', if_neg hnw, if_neg hnh, mapGet_mapSet]

/-- C3 witness: scale with exactly one nonzero dimension succeeds and
stores the resize command, at width 100, height 0. -/
theorem C3_resize_validation_witness :
    (0 : Int) ≤ 100 ∧ (0 : Int) ≤ 0 ∧
    (Resize s0 (some ⟨"scale", 100, 0⟩)).2 = none ∧
    mapGet (Resize s0 (some ⟨"scale", 100, 0⟩)).1.commands "resize"
      = some (Cmd.resize ⟨"scale", 100, 0⟩) := by
  have h := C3_resize_validation s0 ⟨"scale", 100, 0⟩ (by decide) (by decide)
  have h2 := (h.1 rfl).2.2 (Or.inr ⟨by decide, rfl⟩)
  exact ⟨by decide, by decide, h2.1, h2.2⟩

/-- C10: whenever Resize, Convert or Transform returns an error, the
Source (in particular its command mapping) is left completely
unchanged: every error return in the Go code happens before the single
assignment into `s.commands`. -/
theorem C10_errors_leave_commands_unchanged (s : Source) (ro : Option ResizeOption)
    (co : List String) (t : Option TransformOptions) :
    ((Resize s ro).2.isSome = true → (Resize s ro).1 = s) ∧
    ((Convert s co).2.isSome = true → (Convert s co).1 = s) ∧
    ((Transform s t).2.isSome = true → (Transform s t).1 = s) := by
  refine ⟨?_, ?_, ?_⟩
  · cases ro with
    | none => intro _; rfl
    | some opt =>
      simp only [Resize]
      split_ifs <;> simp
  · simp only [Convert]
    split_ifs <;> simp
  · cases t with
    | none => intro _; rfl
    | some opt => simp [Transform]

/-- C10 witness: the three error cases at concrete inputs (nil resize
option, empty convert list, nil transform option) all leave `s0`
unchanged. -/
theorem C10_witness :
    (Resize s0 none).2.isSome = true ∧ (Resize s0 none).1 = s0 ∧
    (Convert s0 []).2.isSome = true ∧ (Convert s0 []).1 = s0 ∧
    (Transform s0 none).2.isSome = true ∧ (Transform s0 none).1 = s0 := by
  have h := C10_errors_leave_commands_unchanged s0 none [] none
  exact ⟨by decide, h.1 (by decide), by decide, h.2.1 (by decide), by decide,
    h.2.2 (by decide)⟩

/-- C4: when the HTTP request of `toResult` succeeds, a response with
status ≥ 400 or a JSON content-type is an API error: the decoded
`{error, message}` payload is exposed verbatim in the error text; when
reading the body fails the error text is exactly the raw HTTP status
line, and when JSON decoding fails the error text is built from the
quoted status line; otherwise the body is wrapped with its headers as a
Result. -/
theorem C4_toResult_classification (s : Source) (response : HTTPResponse)
    (unmarshal : List Nat → Except String ErrorMessage)
    (hurl : ¬ s.url.length = 0) :
    ((400 ≤ response.statusCode ∨
        headerGet response.header "Content-Type" = "application/json") →
      (∀ e, response.bodyRead = .error e →
        toResult s (.ok response) unmarshal = .error response.status) ∧
      (∀ data em, response.bodyRead = .ok data → unmarshal data = .ok em →
        toResult s (.ok response) unmarshal
          = .error ("Tinify API call failed, HTTP status was " ++ goQuote response.status ++
              ". Error: " ++ em.Error ++ " Message: " ++ em.Message)) ∧
      (∀ data je, response.bodyRead = .ok data → unmarshal data = .error je →
        toResult s (.ok response) unmarshal
          = .error ("Tinify API call failed, HTTP status was " ++ goQuote response.status ++
              ", couldn't unmarshal JSON body: error " ++ goQuote je))) ∧
    (¬ (400 ≤ response.statusCode ∨
        headerGet response.header "Content-Type" = "application/json") →
      (∀ data, response.bodyRead = .ok data →
        toResult s (.ok response) unmarshal = .ok (NewResult response.header data)) ∧
      (∀ e, response.bodyRead = .error e →
        toResult s (.ok response) unmarshal = .error e)) := by
  constructor
  · intro hcls
    refine ⟨?_, ?_, ?_⟩
    · intro e he
      simp only [toResult, if_neg hurl, if_pos hcls, he]
    · intro data em hdata hem
      simp only [toResult, if_neg hurl, if_pos hcls, hdata, hem]
    · intro data je hdata hje
      simp only [toResult, if_neg hurl, if_pos hcls, hdata, hje]
  · intro hcls
    constructor
    · intro data hdata
      simp only [toResult, if_neg hurl, if_neg hcls, hdata]
    · intro e he
      simp only [toResult, if_neg hurl, if_neg hcls, he]

/-- The `json.Unmarshal` oracle for the C4 scenario: the body decodes to
the TooManyRequests error message. -/
def um429 : List Nat → Except String ErrorMessage :=
  fun _ => .ok { Error := "TooManyRequests", Message := "quota exceeded" }

/-- C4 witness: the 429 scenario of the claim, with both decoded fields
exposed verbatim in the error text. -/
theorem C4_toResult_classification_witness :
    ¬ s0.url.length = 0 ∧
    (400 ≤ resp429.statusCode ∨ headerGet resp429.header "Content-Type" = "application/json") ∧
    toResult s0 (.ok resp429) um429
      = .error ("Tinify API call failed, HTTP status was " ++ goQuote "429 Too Many Requests" ++
          ". Error: " ++ "TooManyRequests" ++ " Message: " ++ "quota exceeded") := by
  refine ⟨by decide, by decide, ?_⟩
  have h := (C4_toResult_classification s0 resp429 um429 (by decide)).1 (by decide)
  exact h.2.1 [123] { Error := "TooManyRequests", Message := "quota exceeded" } rfl rfl

/-- C5 counterexample to the claim as stated: Convert(["png","bogus"])
does not store exactly "image/png"; the unmapped name is dropped but the
comma separator it triggered remains, so "image/png," is stored. -/
theorem C5_unmapped_keeps_comma :
    (Convert s0 ["png", "bogus"]).2 = none ∧
    mapGet (Convert s0 ["png", "bogus"]).1.commands "convert"
      = some (Cmd.convert ⟨"image/png,"⟩) ∧
    ¬ ("image/png," = "image/png") := by
  decide

/-- C5 amended: each name is mapped through the fixed lookup table, an
unmapped name contributing the empty string to the comma-join (the
separator for its position is kept, so unmapped names are dropped from
the list but can leave empty segments), and no error arises from
unmapped names; an error arises exactly when the joined result is empty
(given a non-empty argument list).  `convertJoin` (the code's loop)
equals the positional comma-join of the mapped names. -/
theorem C5_convert_mapping_amended (s : Source) (options : List String) :
    (convertJoin options = specJoin "," (options.map ConvertMIMETypes)) ∧
    (ConvertMIMETypes "png" = "image/png" ∧ ConvertMIMETypes "jpeg" = "image/jpeg" ∧
      ConvertMIMETypes "webp" = "image/webp" ∧ ConvertMIMETypes "avif" = "image/avif") ∧
    (∀ name, name ≠ "png" → name ≠ "jpeg" → name ≠ "webp" → name ≠ "avif" →
      ConvertMIMETypes name = "") ∧
    (options ≠ [] → ¬ (convertJoin options).length = 0 →
      Convert s options
        = ({ s with
              commands := mapSet s.commands "convert" (Cmd.convert ⟨convertJoin options⟩) },
            none)) ∧
    (options ≠ [] → (convertJoin options).length = 0 →
      Convert s options = (s, some "concatenation of MIME types unexpectedly failed")) := by
  refine ⟨convertJoin_eq_specJoin options, ⟨rfl, rfl, rfl, rfl⟩, ?_, ?_, ?_⟩
  · intro name h1 h2 h3 h4
    simp [ConvertMIMETypes, h1, h2, h3, h4]
  · intro hne hlen
    have hl : ¬ options.length = 0 := by
      simpa [List.length_eq_zero] using hne
    simp only [Convert, if_neg hl, if_neg hlen]
  · intro hne hlen
    have hl : ¬ options.length = 0 := by
      simpa [List.length_eq_zero] using hne
    simp only [Convert, if_neg hl, if_pos hlen]

/-- C5 witness: at Convert(["png","bogus"]), the join is non-empty and
the stored string is the loop's join (which is "image/png,"). -/
theorem C5_convert_mapping_amended_witness :
    (["png", "bogus"] : List String) ≠ [] ∧
    ¬ (convertJoin ["png", "bogus"]).length = 0 ∧
    Convert s0 ["png", "bogus"]
      = ({ s0 with
            commands := mapSet s0.commands "convert"
              (Cmd.convert ⟨convertJoin ["png", "bogus"]⟩) },
          none) := by
  refine ⟨by decide, by decide, ?_⟩
  exact (C5_convert_mapping_amended s0 ["png", "bogus"]).2.2.2.1 (by decide) (by decide)

/-- C6: Convert with an empty list yields a validation error and leaves
the Source (hence its command set) unchanged; Convert(["png","webp"])
succeeds and stores exactly "image/png,image/webp" under "convert",
preserving input order. -/
theorem C6_convert_empty_and_order (s : Source) :
    Convert s [] = (s, some "at least one option for convert is required") ∧
    Convert s ["png", "webp"]
      = ({ s with
            commands := mapSet s.commands "convert" (Cmd.convert ⟨"image/png,image/webp"⟩) },
          none) := by
  exact ⟨rfl, rfl⟩

/-- C7 counterexample to the claim as stated: an absent (nil) body does
yield an error, because an untyped nil matches neither `[]byte` nor
`map[string]any` in the type-switch and falls into the default arm. -/
theorem C7_nil_body_rejected :
    Request "/shrink" RequestBody.nilBody (fun _ => .ok [])
      = .error "invalid request body; must be either an image or a JSON object" := by
  decide

/-- C7 amended: the body must be raw bytes or a structured mapping
(serialized through the marshal oracle with the JSON content-type header
set); any other body kind, including an absent (nil) body, yields the
local validation error before anything is sent over the wire.  A
bodiless request is instead expressed by an empty byte slice or an empty
mapping, which succeed without setting body bytes. -/
theorem C7_request_body_kinds (urlRequest : String) (b : List Nat)
    (m : List (String × String))
    (marshal : List (String × String) → Except String (List Nat)) :
    (Request urlRequest (.bytes b) marshal
      = .ok { url := requestURL urlRequest,
              bodyBytes := if 0 < b.length then some b else none,
              jsonContentType := false }) ∧
    (∀ bj, 0 < m.length → marshal m = .ok bj →
      Request urlRequest (.jsonMap m) marshal
        = .ok { url := requestURL urlRequest, bodyBytes := some bj,
                jsonContentType := true }) ∧
    (∀ e, 0 < m.length → marshal m = .error e →
      Request urlRequest (.jsonMap m) marshal = .error e) ∧
    (m.length = 0 →
      Request urlRequest (.jsonMap m) marshal
        = .ok { url := requestURL urlRequest, bodyBytes := none, jsonContentType := true }) ∧
    (Request urlRequest .nilBody marshal
      = .error "invalid request body; must be either an image or a JSON object") ∧
    (Request urlRequest .other marshal
      = .error "invalid request body; must be either an image or a JSON object") := by
  refine ⟨rfl, ?_, ?_, ?_, rfl, rfl⟩
  · intro bj hml hmar
    simp only [Request, if_pos hml, hmar]
  · intro e hml hmar
    simp only [Request, if_pos hml, hmar]
  · intro hml
    have : ¬ 0 < m.length := by omega
    simp only [Request, if_neg this]

/-- The `json.Marshal` oracle for the C7 witness. -/
def marshal42 : List (String × String) → Except String (List Nat) :=
  fun _ => .ok [42]

/-- C7 witness: a non-empty mapping whose marshalling succeeds is sent
as JSON body with the JSON content-type set, against the prefixed
endpoint URL. -/
theorem C7_request_body_kinds_witness :
    0 < ([("source", "https://example.com/a.png")] : List (String × String)).length ∧
    marshal42 [("source", "https://example.com/a.png")] = .ok [42] ∧
    Request "/shrink" (.jsonMap [("source", "https://example.com/a.png")]) marshal42
      = .ok { url := requestURL "/shrink", bodyBytes := some [42],
              jsonContentType := true } ∧
    requestURL "/shrink" = "https://api.tinify.com/shrink" := by
  refine ⟨by decide, rfl, ?_, by decide⟩
  exact (C7_request_body_kinds "/shrink" [] [("source", "https://example.com/a.png")]
    marshal42).2.1 [42] (by decide) rfl

/-- C8: whenever `toResult` (the fetch) itself succeeds, ToFileC returns
the compression count from the fetched result's headers regardless of
the file-write outcome (including a write error), and ToBufferC returns
that count even when the data-extraction step fails because the result
holds zero bytes. -/
theorem C8_compression_count_on_failures (s : Source)
    (requestResult : Except String HTTPResponse)
    (unmarshal : List Nat → Except String ErrorMessage)
    (writeResult : Option String) (r : Result)
    (hfetch : toResult s requestResult unmarshal = .ok r) :
    ToFileC s requestResult unmarshal writeResult
      = GoRet.ok (r.compressionCount, writeResult) ∧
    (ToBufferC s requestResult unmarshal).2.1 = r.compressionCount ∧
    (r.data.length = 0 →
      ToBufferC s requestResult unmarshal
        = (r.data, r.compressionCount, some "result returned zero bytes")) := by
  refine ⟨?_, ?_, ?_⟩
  · simp only [ToFileC, hfetch]
  · simp only [ToBufferC, hfetch, Result.Data]
    split_ifs <;> rfl
  · intro hlen
    simp only [ToBufferC, hfetch, Result.Data, if_pos hlen]

/-- A concrete 200 response whose fetch succeeds with a
Compression-Count header of 7. -/
def respOK : HTTPResponse :=
  { statusCode := 200, status := "200 OK",
    header := [("Compression-Count", ["7"])], bodyRead := .ok [10, 20] }

/-- C8 witness: with a successful fetch, ToFileC returns count 7 even
though the write step failed. -/
theorem C8_compression_count_on_failures_witness :
    toResult s0 (.ok respOK) um429 = .ok (NewResult respOK.header [10, 20]) ∧
    ToFileC s0 (.ok respOK) um429 (some "write failed")
      = GoRet.ok ((NewResult respOK.header [10, 20]).compressionCount, some "write failed") ∧
    (NewResult respOK.header [10, 20]).compressionCount = 7 := by
  refine ⟨by decide, ?_, by decide⟩
  exact (C8_compression_count_on_failures s0 (.ok respOK) um429 (some "write failed")
    (NewResult respOK.header [10, 20]) (by decide)).1

/-- C9 counterexample to the claim as stated: the header value
"99999999999999999999" fails to parse (strconv.Atoi reports ErrRange),
yet size() returns the clamped math.MaxInt64, not 0. -/
theorem C9_overflow_not_zero :
    (goAtoi "99999999999999999999").2 = true ∧
    (NewResultMeta [("Content-Length", ["99999999999999999999"])]).size
      = 9223372036854775807 ∧
    ¬ (NewResultMeta [("Content-Length", ["99999999999999999999"])]).size = 0 := by
  decide

/-- C9 amended: the integer accessors return the `strconv.Atoi` value of
the first header value and 0 when the header is absent, never an error;
`goAtoi` returns the denoted integer for every decimal numeral in the
int64 range, 0 for every syntactically non-numeric string, and the
clamped int64 boundary (with the error flag) for out-of-range numerals;
location and mediaType return the header string or the empty string. -/
theorem C9_resultMeta_accessors (meta : Headers) :
    (hGet meta "Image-Width" = [] → (NewResultMeta meta).width = 0) ∧
    (∀ v rest, hGet meta "Image-Width" = v :: rest →
      (NewResultMeta meta).width = (goAtoi v).1) ∧
    (hGet meta "Image-Height" = [] → (NewResultMeta meta).height = 0) ∧
    (∀ v rest, hGet meta "Image-Height" = v :: rest →
      (NewResultMeta meta).height = (goAtoi v).1) ∧
    (hGet meta "Content-Length" = [] → (NewResultMeta meta).size = 0) ∧
    (∀ v rest, hGet meta "Content-Length" = v :: rest →
      (NewResultMeta meta).size = (goAtoi v).1) ∧
    (hGet meta "Compression-Count" = [] → (NewResultMeta meta).compressionCount = 0) ∧
    (∀ v rest, hGet meta "Compression-Count" = v :: rest →
      (NewResultMeta meta).compressionCount = (goAtoi v).1) ∧
    (hGet meta "Location" = [] → (NewResultMeta meta).location = "") ∧
    (∀ v rest, hGet meta "Location" = v :: rest → (NewResultMeta meta).location = v) ∧
    (hGet meta "Content-Type" = [] → (NewResultMeta meta).mediaType = "") ∧
    (∀ v rest, hGet meta "Content-Type" = v :: rest → (NewResultMeta meta).mediaType = v) ∧
    (∀ v, decimalValue v = none → goAtoi v = (0, true)) ∧
    (∀ v n, decimalValue v = some n →
      goAtoi v = (if n < minInt64 then (minInt64, true)
        else if maxInt64 < n then (maxInt64, true)
        else (n, false))) := by
  refine ⟨?_, ?_, ?_, ?_, ?_, ?_, ?_, ?_, ?_, ?_, ?_, ?_,
    goAtoi_of_decimalValue_none, goAtoi_of_decimalValue_some⟩
  · intro h; simp only [ResultMeta.width, NewResultMeta, h]
  · intro v rest h; simp only [ResultMeta.width, NewResultMeta, h]
  · intro h; simp only [ResultMeta.height, NewResultMeta, h]
  · intro v rest h; simp only [ResultMeta.height, NewResultMeta, h]
  · intro h; simp only [ResultMeta.size, NewResultMeta, h]
  · intro v rest h; simp only [ResultMeta.size, NewResultMeta, h]
  · intro h; simp only [ResultMeta.compressionCount, NewResultMeta, h]
  · intro v rest h; simp only [ResultMeta.compressionCount, NewResultMeta, h]
  · intro h; simp only [ResultMeta.location, NewResultMeta, h]
  · intro v rest h; simp only [ResultMeta.location, NewResultMeta, h]
  · intro h; simp only [ResultMeta.mediaType, NewResultMeta, h]
  · intro v rest h; simp only [ResultMeta.mediaType, NewResultMeta, h]

/-- C9 witness: Content-Length "12345" parses to 12345; the absent
header and the in-range clauses are discharged at concrete inputs. -/
theorem C9_resultMeta_accessors_witness :
    hGet [("Content-Length", ["12345"])] "Content-Length" = "12345" :: [] ∧
    (NewResultMeta [("Content-Length", ["12345"])]).size = (goAtoi "12345").1 ∧
    decimalValue "12345" = some 12345 ∧
    (goAtoi "12345").1 = 12345 ∧
    hGet ([] : Headers) "Content-Length" = [] ∧
    (NewResultMeta ([] : Headers)).size = 0 := by
  have h := C9_resultMeta_accessors [("Content-Length", ["12345"])]
  have h0 := C9_resultMeta_accessors ([] : Headers)
  refine ⟨by decide, ?_, by decide, by decide, by decide, ?_⟩
  · exact h.2.2.2.2.2.1 "12345" [] (by decide)
  · exact h0.2.2.2.2.1 (by decide)

end Tinify
